import Mathlib

/-!
Verification of `src/python/lattice.py` (churchroad lattice FPGA-slice model).

The Python code builds symbolic z3 expressions over bit-vectors and booleans:
`lut4` (a four-stage conditional-select LUT4 decode), `mux` (2-to-1 select),
`extract_to_bool_array` (a bit-range to MSB-first boolean list), and the
wrapper classes `LUT4`, `MUX`, `Slice`.

We shallowly embed the fragment of the z3 expression language the code uses
(`Expr`), give it an evaluation semantics over assignments of the named
symbolic values (`Env`, `evalE`), and translate each Python definition.
-/

namespace Lattice

/-- z3 sorts used by the code: the boolean sort and bit-vector sorts of a
given width. -/
inductive ESort where
  | bool : ESort
  | bv (w : Nat) : ESort
deriving DecidableEq

/-- The fragment of the z3 expression language that `lattice.py` constructs:
named booleans (`Bool(name)`), named bit-vectors (`BitVec(name, w)`), boolean
and bit-vector literals (`BoolVal`, `BitVecVal(v, w)`), bit extraction
(`Extract(hi, lo, x)`), equality (`==`), and conditional select (`If`). -/
inductive Expr where
  | boolVar (name : String) : Expr
  | boolVal (x : Bool) : Expr
  | bvVar (name : String) (w : Nat) : Expr
  | bvVal (v : Nat) (w : Nat) : Expr
  | extract (hi lo : Nat) (x : Expr) : Expr
  | eq (a b : Expr) : Expr
  | ite (c a b : Expr) : Expr
deriving DecidableEq

/-- The z3 sort of an expression (z3's `Extract(hi, lo, x)` has sort
`BitVec(hi - lo + 1)`; `If` has the sort of its branches). -/
def Expr.sort : Expr → ESort
  | .boolVar _ => .bool
  | .boolVal _ => .bool
  | .bvVar _ w => .bv w
  | .bvVal _ w => .bv w
  | .extract hi lo _ => .bv (hi + 1 - lo)
  | .eq _ _ => .bool
  | .ite _ a _ => a.sort

/-- An assignment (z3 model) for the named symbolic values: booleans get a
`Bool`, bit-vectors get a natural number (reduced modulo `2^w` at use). -/
structure Env where
  boolVars : String → Bool
  bvVars : String → Nat

/-- Semantic values: a boolean, or a bit-vector value together with its
width. -/
inductive Value where
  | b (x : Bool) : Value
  | bv (v : Nat) (w : Nat) : Value
deriving DecidableEq

/-- Evaluation of an expression under an assignment.  Bit-vector values are
machine integers of width `w`, represented as `Nat` reduced modulo `2 ^ w`;
`Extract(hi, lo, x)` yields `x / 2 ^ lo % 2 ^ (hi + 1 - lo)`.  The two
ill-sorted cases (extracting from a boolean, conditioning on a bit-vector)
are given harmless default values: z3 rejects such terms at construction
time and the translated code never builds them. -/
def evalE (env : Env) : Expr → Value
  | .boolVar n => .b (env.boolVars n)
  | .boolVal x => .b x
  | .bvVar n w => .bv (env.bvVars n % 2 ^ w) w
  | .bvVal v w => .bv (v % 2 ^ w) w
  | .extract hi lo x =>
      match evalE env x with
      | .bv v _ => .bv (v / 2 ^ lo % 2 ^ (hi + 1 - lo)) (hi + 1 - lo)
      | .b _ => .bv 0 (hi + 1 - lo)
  | .eq a b => .b (decide (evalE env a = evalE env b))
  | .ite c a b =>
      match evalE env c with
      | .b true => evalE env a
      | .b false => evalE env b
      | .bv _ _ => .b false

/-- Translation of `lut4(init, A, B, C, D)`: the four-stage conditional-select
decomposition (8-bit half, 4-bit quarter, 2-bit pair, single bit). -/
def lut4 (init A B C D : Expr) : Expr :=
  let tmp0 := Expr.ite A (Expr.extract 15 8 init) (Expr.extract 7 0 init)
  let tmp1 := Expr.ite B (Expr.extract 7 4 tmp0) (Expr.extract 3 0 tmp0)
  let tmp2 := Expr.ite C (Expr.extract 3 2 tmp1) (Expr.extract 1 0 tmp1)
  let tmp3 := Expr.ite D (Expr.extract 1 1 tmp2) (Expr.extract 0 0 tmp2)
  tmp3

/-- Translation of `mux(C, A, B) = If(C, A, B)`. -/
def mux (C A B : Expr) : Expr := Expr.ite C A B

/-- Translation of `extract_to_bool_array(high, low, x)`: the loop
`for i in range(high, low - 1, -1)` visits `high, high - 1, ..., low`
(and visits nothing when `low > high`), appending
`Extract(i, i, x) == BitVecVal(1, 1)` for each `i`. -/
def extract_to_bool_array (high low : Nat) (x : Expr) : List Expr :=
  (List.range (high + 1 - low)).map fun j =>
    Expr.eq (Expr.extract (high - j) (high - j) x) (Expr.bvVal 1 1)

/-- The external solver handed to `Slice.__init__`.  The Python code only
stores it; we model it as its list of asserted constraints so that "no
constraint is ever asserted" is observable. -/
structure Solver where
  assertions : List Expr
deriving DecidableEq

/-- Translation of class `LUT4`: a name prefix and the owned 16-bit
configuration value `self.mem`. -/
structure LUT4 where
  pfx : String
  mem : Expr
deriving DecidableEq

/-- `LUT4.__init__(self, prefix)`: `self.mem = BitVec(prefix + "_init", 16)`. -/
def mkLUT4 (p : String) : LUT4 :=
  { pfx := p, mem := Expr.bvVar (p ++ "_init") 16 }

/-- `LUT4.__call__(self, A, B, C, D) = lut4(self.mem, A, B, C, D)`. -/
def LUT4.call (l : LUT4) (A B C D : Expr) : Expr :=
  lut4 l.mem A B C D

/-- Translation of class `MUX`: a name prefix and the owned boolean selector. -/
structure MUX where
  pfx : String
  selector : Expr
deriving DecidableEq

/-- `MUX.__init__(self, prefix)`: `self.selector = Bool(prefix + "_selector")`. -/
def mkMUX (p : String) : MUX :=
  { pfx := p, selector := Expr.boolVar (p ++ "_selector") }

/-- `MUX.__call__(self, A, B) = mux(self.selector, A, B)`. -/
def MUX.call (m : MUX) (A B : Expr) : Expr :=
  mux m.selector A B

/-- Translation of class `Slice`: prefix, the stored solver, two LUT4s and
two MUXes. -/
structure Slice where
  pfx : String
  solver : Solver
  lut4_0 : LUT4
  lut4_1 : LUT4
  pfumx : MUX
  l6mux21 : MUX
deriving DecidableEq

/-- `Slice.__init__(self, prefix, solver)`. -/
def mkSlice (p : String) (solver : Solver) : Slice :=
  { pfx := p
    solver := solver
    lut4_0 := mkLUT4 (p ++ "_lut_0")
    lut4_1 := mkLUT4 (p ++ "_lut_1")
    pfumx := mkMUX (p ++ "_PFUMX")
    l6mux21 := mkMUX (p ++ "_L6MUX21") }

/-- The Python splat `self.lut4_0(*extract_to_bool_array(...))`: apply a
`LUT4` to a list of exactly four arguments.  Any other arity would be a
Python `TypeError`; the default value models that and is never reached
(the lists used have length four). -/
def LUT4.callList (l : LUT4) (args : List Expr) : Expr :=
  match args with
  | [a, b, c, d] => l.call a b c d
  | _ => Expr.bvVal 0 1

/-- `Slice.__call__(self, inputs, FXA, FXB)`: returns `(F0, F1, OFX0, OFX1)`. -/
def Slice.call (s : Slice) (inputs FXA FXB : Expr) : Expr × Expr × Expr × Expr :=
  let F0 := s.lut4_0.callList (extract_to_bool_array 7 4 inputs)
  let F1 := s.lut4_1.callList (extract_to_bool_array 3 0 inputs)
  let OFX0 := s.pfumx.call F0 F1
  let OFX1 := s.l6mux21.call FXA FXB
  (F0, F1, OFX0, OFX1)

/-- State-passing form of `Slice.__call__`: the method body contains no
attribute assignment, so the post-state is the unchanged instance. -/
def Slice.callSt (s : Slice) (inputs FXA FXB : Expr) :
    Slice × (Expr × Expr × Expr × Expr) :=
  (s, s.call inputs FXA FXB)

/-- Bit `i` of `x` (0-indexed from the LSB), as a natural number in `{0, 1}`. -/
def nthBit (x i : Nat) : Nat := x / 2 ^ i % 2

/-- A fixed concrete assignment, for concrete-example evaluations. -/
def env0 : Env := ⟨fun _ => false, fun _ => 0⟩

/-! ## Shared helper lemmas -/

lemma string_append_assoc (a b c : String) : (a ++ b) ++ c = a ++ (b ++ c) := by
  apply String.ext
  simp [String.data_append]

/-- Collapsing a modulus in front of a nested extract:
`x % M / K % W = x / K % W` whenever `K * W` divides `M`. -/
lemma ext_step (x M K W : Nat) (h : K * W ∣ M) : x % M / K % W = x / K % W := by
  obtain ⟨t, ht⟩ := h
  subst ht
  rw [mul_assoc, Nat.mod_mul_right_div_self, Nat.mod_mod_of_dvd _ ⟨t, rfl⟩]

lemma nthBit_le_one (x i : Nat) : nthBit x i ≤ 1 := by
  have := Nat.mod_lt (x / 2 ^ i) (show 0 < 2 by norm_num)
  unfold nthBit
  omega

lemma cond_decide_bit (x i : Nat) :
    cond (decide (nthBit x i = 1)) 1 0 = nthBit x i := by
  rcases Nat.mod_two_eq_zero_or_one (x / 2 ^ i) with h | h <;> simp [nthBit, h]

/-- Evaluating the LUT4 decode: with the configuration evaluating to
bit-vector value `m` and the four selects evaluating to booleans
`a, b, c, d`, the result is bit `8a + 4b + 2c + d` of `m` (as a 1-bit
bit-vector). -/
lemma evalE_lut4 (env : Env) (I A B C D : Expr) (m w : Nat) (a b c d : Bool)
    (hI : evalE env I = .bv m w)
    (hA : evalE env A = .b a) (hB : evalE env B = .b b)
    (hC : evalE env C = .b c) (hD : evalE env D = .b d) :
    evalE env (lut4 I A B C D) =
      .bv (m / 2 ^ (8 * cond a 1 0 + 4 * cond b 1 0 + 2 * cond c 1 0 + cond d 1 0) % 2) 1 := by
  cases a <;> cases b <;> cases c <;> cases d <;>
    simp only [lut4, evalE, hI, hA, hB, hC, hD, cond] <;>
    norm_num <;> omega

/-- The LUT4 decode applied to a named 16-bit configuration value reads the
indexed bit of the assignment of that name (the reduction modulo `2 ^ 16`
is invisible because the index is at most 15). -/
lemma evalE_lut4_var (env : Env) (n : String) (A B C D : Expr) (a b c d : Bool)
    (hA : evalE env A = .b a) (hB : evalE env B = .b b)
    (hC : evalE env C = .b c) (hD : evalE env D = .b d) :
    evalE env (lut4 (Expr.bvVar n 16) A B C D) =
      .bv (env.bvVars n / 2 ^ (8 * cond a 1 0 + 4 * cond b 1 0 + 2 * cond c 1 0 + cond d 1 0) % 2) 1 := by
  rw [evalE_lut4 env (Expr.bvVar n 16) A B C D (env.bvVars n % 2 ^ 16) 16 a b c d rfl
    hA hB hC hD]
  congr 1
  apply ext_step
  rw [← pow_succ]
  apply pow_dvd_pow
  cases a <;> cases b <;> cases c <;> cases d <;> decide

/-- Evaluating one element of the boolean bit array:
`Extract(i, i, x) == BitVecVal(1, 1)` evaluates to the test of bit `i`. -/
lemma evalE_bit_eq (env : Env) (x : Expr) (v w i : Nat)
    (hx : evalE env x = .bv v w) :
    evalE env (Expr.eq (Expr.extract i i x) (Expr.bvVal 1 1)) =
      .b (decide (nthBit v i = 1)) := by
  simp only [evalE, hx, nthBit, Nat.add_sub_cancel_left]
  norm_num

/-- Evaluating a conditional whose condition evaluates to a boolean. -/
lemma evalE_ite_b (env : Env) (c a b : Expr) (x : Bool)
    (hc : evalE env c = .b x) :
    evalE env (Expr.ite c a b) = cond x (evalE env a) (evalE env b) := by
  cases x <;> simp [evalE, hc]

/-- The four outputs of `Slice.__call__`, evaluated under an assignment in
which the 8-bit input expression has value `v`: `F0` is the bit of the
first LUT4's configuration indexed by bits 7–4 of `v` (MSB-first), `F1` the
bit of the second configuration indexed by bits 3–0, `OFX0` selects between
the evaluations of `F0` and `F1` by the PFUMX selector, and `OFX1` selects
between the evaluations of `FXA` and `FXB` by the L6MUX21 selector. -/
lemma slice_call_eval (p : String) (sv : Solver) (inputs FXA FXB : Expr)
    (env : Env) (v : Nat) (hv : evalE env inputs = .bv v 8) :
    evalE env ((mkSlice p sv).call inputs FXA FXB).1 =
      .bv (nthBit (env.bvVars (p ++ "_lut_0_init"))
        (8 * nthBit v 7 + 4 * nthBit v 6 + 2 * nthBit v 5 + nthBit v 4)) 1 ∧
    evalE env ((mkSlice p sv).call inputs FXA FXB).2.1 =
      .bv (nthBit (env.bvVars (p ++ "_lut_1_init"))
        (8 * nthBit v 3 + 4 * nthBit v 2 + 2 * nthBit v 1 + nthBit v 0)) 1 ∧
    evalE env ((mkSlice p sv).call inputs FXA FXB).2.2.1 =
      cond (env.boolVars (p ++ "_PFUMX_selector"))
        (evalE env ((mkSlice p sv).call inputs FXA FXB).1)
        (evalE env ((mkSlice p sv).call inputs FXA FXB).2.1) ∧
    evalE env ((mkSlice p sv).call inputs FXA FXB).2.2.2 =
      cond (env.boolVars (p ++ "_L6MUX21_selector")) (evalE env FXA) (evalE env FXB) := by
  have hn0 : p ++ "_lut_0" ++ "_init" = p ++ "_lut_0_init" := by
    rw [string_append_assoc]; rfl
  have hn1 : p ++ "_lut_1" ++ "_init" = p ++ "_lut_1_init" := by
    rw [string_append_assoc]; rfl
  have hn2 : p ++ "_PFUMX" ++ "_selector" = p ++ "_PFUMX_selector" := by
    rw [string_append_assoc]; rfl
  have hn3 : p ++ "_L6MUX21" ++ "_selector" = p ++ "_L6MUX21_selector" := by
    rw [string_append_assoc]; rfl
  have harr7 : extract_to_bool_array 7 4 inputs =
      [Expr.eq (Expr.extract 7 7 inputs) (Expr.bvVal 1 1),
       Expr.eq (Expr.extract 6 6 inputs) (Expr.bvVal 1 1),
       Expr.eq (Expr.extract 5 5 inputs) (Expr.bvVal 1 1),
       Expr.eq (Expr.extract 4 4 inputs) (Expr.bvVal 1 1)] := rfl
  have harr3 : extract_to_bool_array 3 0 inputs =
      [Expr.eq (Expr.extract 3 3 inputs) (Expr.bvVal 1 1),
       Expr.eq (Expr.extract 2 2 inputs) (Expr.bvVal 1 1),
       Expr.eq (Expr.extract 1 1 inputs) (Expr.bvVal 1 1),
       Expr.eq (Expr.extract 0 0 inputs) (Expr.bvVal 1 1)] := rfl
  have hcall : (mkSlice p sv).call inputs FXA FXB =
      (lut4 (Expr.bvVar (p ++ "_lut_0_init") 16)
         (Expr.eq (Expr.extract 7 7 inputs) (Expr.bvVal 1 1))
         (Expr.eq (Expr.extract 6 6 inputs) (Expr.bvVal 1 1))
         (Expr.eq (Expr.extract 5 5 inputs) (Expr.bvVal 1 1))
         (Expr.eq (Expr.extract 4 4 inputs) (Expr.bvVal 1 1)),
       lut4 (Expr.bvVar (p ++ "_lut_1_init") 16)
         (Expr.eq (Expr.extract 3 3 inputs) (Expr.bvVal 1 1))
         (Expr.eq (Expr.extract 2 2 inputs) (Expr.bvVal 1 1))
         (Expr.eq (Expr.extract 1 1 inputs) (Expr.bvVal 1 1))
         (Expr.eq (Expr.extract 0 0 inputs) (Expr.bvVal 1 1)),
       Expr.ite (Expr.boolVar (p ++ "_PFUMX_selector"))
         (lut4 (Expr.bvVar (p ++ "_lut_0_init") 16)
           (Expr.eq (Expr.extract 7 7 inputs) (Expr.bvVal 1 1))
           (Expr.eq (Expr.extract 6 6 inputs) (Expr.bvVal 1 1))
           (Expr.eq (Expr.extract 5 5 inputs) (Expr.bvVal 1 1))
           (Expr.eq (Expr.extract 4 4 inputs) (Expr.bvVal 1 1)))
         (lut4 (Expr.bvVar (p ++ "_lut_1_init") 16)
           (Expr.eq (Expr.extract 3 3 inputs) (Expr.bvVal 1 1))
           (Expr.eq (Expr.extract 2 2 inputs) (Expr.bvVal 1 1))
           (Expr.eq (Expr.extract 1 1 inputs) (Expr.bvVal 1 1))
           (Expr.eq (Expr.extract 0 0 inputs) (Expr.bvVal 1 1))),
       Expr.ite (Expr.boolVar (p ++ "_L6MUX21_selector")) FXA FXB) := by
    simp only [Slice.call, mkSlice, mkLUT4, mkMUX, LUT4.callList, LUT4.call, MUX.call, mux,
      harr7, harr3, hn0, hn1, hn2, hn3]
  have h7 := evalE_bit_eq env inputs v 8 7 hv
  have h6 := evalE_bit_eq env inputs v 8 6 hv
  have h5 := evalE_bit_eq env inputs v 8 5 hv
  have h4 := evalE_bit_eq env inputs v 8 4 hv
  have h3 := evalE_bit_eq env inputs v 8 3 hv
  have h2 := evalE_bit_eq env inputs v 8 2 hv
  have h1 := evalE_bit_eq env inputs v 8 1 hv
  have h0 := evalE_bit_eq env inputs v 8 0 hv
  refine ⟨?_, ?_, ?_, ?_⟩
  · rw [hcall]
    rw [evalE_lut4_var env _ _ _ _ _ _ _ _ _ h7 h6 h5 h4]
    simp only [cond_decide_bit]
    rfl
  · rw [hcall]
    rw [evalE_lut4_var env _ _ _ _ _ _ _ _ _ h3 h2 h1 h0]
    simp only [cond_decide_bit]
    rfl
  · rw [hcall]
    exact evalE_ite_b env _ _ _ (env.boolVars (p ++ "_PFUMX_selector")) rfl
  · rw [hcall]
    exact evalE_ite_b env _ _ _ (env.boolVars (p ++ "_L6MUX21_selector")) rfl

/-- Reducing a value modulo `2 ^ 16` does not change bits 0–15. -/
lemma nthBit_mod16 (m i : Nat) (hi : i ≤ 15) : nthBit (m % 2 ^ 16) i = nthBit m i := by
  unfold nthBit
  apply ext_step
  rw [← pow_succ]
  exact pow_dvd_pow 2 (by omega)

/-- Bits 7–4 of a value are determined by the field `v / 16 % 16`. -/
lemma nthBit_field_hi (v1 v2 : Nat) (h : v1 / 16 % 16 = v2 / 16 % 16) (i : Nat)
    (h4 : 4 ≤ i) (h7 : i ≤ 7) : nthBit v1 i = nthBit v2 i := by
  unfold nthBit
  interval_cases i <;> norm_num <;> omega

/-- Bits 3–0 of a value are determined by the field `v % 16`. -/
lemma nthBit_field_lo (v1 v2 : Nat) (h : v1 % 16 = v2 % 16) (i : Nat)
    (h3 : i ≤ 3) : nthBit v1 i = nthBit v2 i := by
  unfold nthBit
  interval_cases i <;> norm_num <;> omega

/-! ## The claims -/

/-- C1: for every concrete 16-bit value `init` and every assignment of the
four booleans A, B, C, D, the four-stage conditional-select decomposition
computed by `lut4(init, A, B, C, D)` equals bit number `A*8 + B*4 + C*2 + D`
of `init` (0-indexed from the LSB); in particular, for
`init = 0b0000000000000010` the decode returns 1 at
`(A,B,C,D) = (0,0,0,1)` and 0 at the other 15 combinations. -/
theorem lut4_decodes_table :
    (∀ (init : Nat), init < 2 ^ 16 →
      ∀ (A B C D : Expr) (env : Env) (a b c d : Bool),
        evalE env A = .b a → evalE env B = .b b →
        evalE env C = .b c → evalE env D = .b d →
        evalE env (lut4 (Expr.bvVal init 16) A B C D) =
          .bv (init / 2 ^ (8 * cond a 1 0 + 4 * cond b 1 0 + 2 * cond c 1 0 + cond d 1 0) % 2)
            1) ∧
    (∀ (a b c d : Bool),
      evalE env0 (lut4 (Expr.bvVal 2 16) (Expr.boolVal a) (Expr.boolVal b)
          (Expr.boolVal c) (Expr.boolVal d)) =
        .bv (if a = false ∧ b = false ∧ c = false ∧ d = true then 1 else 0) 1) := by
  constructor
  · intro init hinit A B C D env a b c d hA hB hC hD
    have h := evalE_lut4 env (Expr.bvVal init 16) A B C D (init % 2 ^ 16) 16 a b c d rfl
      hA hB hC hD
    rwa [Nat.mod_eq_of_lt hinit] at h
  · intro a b c d
    cases a <;> cases b <;> cases c <;> cases d <;> decide

/-- Witness for C1 at `init = 2`, `(A,B,C,D) = (0,0,0,1)`: the decode
returns 1. -/
theorem lut4_decodes_table_witness :
    evalE env0 (lut4 (Expr.bvVal 2 16) (Expr.boolVal false) (Expr.boolVal false)
        (Expr.boolVal false) (Expr.boolVal true)) = .bv 1 1 := by
  have h := lut4_decodes_table.1 2 (by norm_num) (Expr.boolVal false) (Expr.boolVal false)
    (Expr.boolVal false) (Expr.boolVal true) env0 false false false true rfl rfl rfl rfl
  simpa using h

/-- C3: for a bit-vector value of width `W` and indices `low ≤ high < W`,
`extract_to_bool_array(high, low, x)` has exactly `high - low + 1` elements,
MSB-first: element `j` evaluates to true iff bit `high - j` of the value
equals 1. -/
theorem extract_to_bool_array_correct (high low W : Nat) (x : Expr) (env : Env)
    (v : Nat) (hlh : low ≤ high) (hW : high < W) (hx : evalE env x = .bv v W) :
    (extract_to_bool_array high low x).length = high - low + 1 ∧
    ∀ j, j ≤ high - low →
      evalE env ((extract_to_bool_array high low x).getD j (Expr.bvVal 0 1)) =
        .b (decide (nthBit v (high - j) = 1)) := by
  constructor
  · simp only [extract_to_bool_array, List.length_map, List.length_range]
    omega
  · intro j hj
    have hjlt : j < high + 1 - low := by omega
    rw [extract_to_bool_array, List.getD_eq_getElem?_getD, List.getElem?_map,
      List.getElem?_range hjlt]
    exact evalE_bit_eq env x v W (high - j) hx

/-- Witness for C3 over bits 7–4 of an 8-bit value. -/
theorem extract_to_bool_array_correct_witness :
    (extract_to_bool_array 7 4 (Expr.bvVar "x" 8)).length = 7 - 4 + 1 ∧
    evalE env0 ((extract_to_bool_array 7 4 (Expr.bvVar "x" 8)).getD 0 (Expr.bvVal 0 1)) =
      .b (decide (nthBit 0 (7 - 0) = 1)) := by
  have h := extract_to_bool_array_correct 7 4 8 (Expr.bvVar "x" 8) env0 0
    (by norm_num) (by norm_num) rfl
  exact ⟨h.1, h.2 0 (by norm_num)⟩

/-- C4: for same-sorted expressions A and B, the multiplexer satisfies
`mux(true, A, B) = A` and `mux(false, A, B) = B` under every assignment. -/
theorem mux_select_correct (A B : Expr) (env : Env) (hsort : A.sort = B.sort) :
    evalE env (mux (Expr.boolVal true) A B) = evalE env A ∧
    evalE env (mux (Expr.boolVal false) A B) = evalE env B :=
  ⟨rfl, rfl⟩

/-- Witness for C4 on two named booleans. -/
theorem mux_select_correct_witness :
    (Expr.boolVar "a").sort = (Expr.boolVar "b").sort ∧
    evalE env0 (mux (Expr.boolVal true) (Expr.boolVar "a") (Expr.boolVar "b")) =
      evalE env0 (Expr.boolVar "a") ∧
    evalE env0 (mux (Expr.boolVal false) (Expr.boolVar "a") (Expr.boolVar "b")) =
      evalE env0 (Expr.boolVar "b") :=
  ⟨rfl, mux_select_correct (Expr.boolVar "a") (Expr.boolVar "b") env0 rfl⟩

/-- C9: `extract_to_bool_array(high, low, x)` with `high < low` returns the
empty list (the loop body never runs), and `high = low` yields exactly one
boolean. -/
theorem extract_to_bool_array_empty :
    (∀ (high low : Nat) (x : Expr), high < low → extract_to_bool_array high low x = []) ∧
    (∀ (high : Nat) (x : Expr), (extract_to_bool_array high high x).length = 1) := by
  constructor
  · intro high low x h
    unfold extract_to_bool_array
    rw [show high + 1 - low = 0 by omega]
    rfl
  · intro high x
    simp [extract_to_bool_array]

/-- Witness for C9 at `high = 3 < low = 5` and at `high = low = 4`. -/
theorem extract_to_bool_array_empty_witness :
    extract_to_bool_array 3 5 (Expr.bvVar "x" 8) = [] ∧
    (extract_to_bool_array 4 4 (Expr.bvVar "x" 8)).length = 1 :=
  ⟨extract_to_bool_array_empty.1 3 5 (Expr.bvVar "x" 8) (by norm_num),
   extract_to_bool_array_empty.2 4 (Expr.bvVar "x" 8)⟩

/-- C2: a slice invocation returns four outputs: `F0` is LUT4 0's decode of
bits 7–4 of the 8-bit input (MSB-first), `F1` is LUT4 1's decode of bits
3–0, `OFX0` is the first multiplexer applied to `F0` and `F1` (selecting
`F0` when its selector is true, `F1` otherwise), and `OFX1` is the second
multiplexer applied to `FXA` and `FXB`. -/
theorem slice_call_outputs (p : String) (sv : Solver) (inputs FXA FXB : Expr)
    (env : Env) (v : Nat) (hv : evalE env inputs = .bv v 8) :
    evalE env ((mkSlice p sv).call inputs FXA FXB).1 =
      .bv (nthBit (env.bvVars (p ++ "_lut_0_init"))
        (8 * nthBit v 7 + 4 * nthBit v 6 + 2 * nthBit v 5 + nthBit v 4)) 1 ∧
    evalE env ((mkSlice p sv).call inputs FXA FXB).2.1 =
      .bv (nthBit (env.bvVars (p ++ "_lut_1_init"))
        (8 * nthBit v 3 + 4 * nthBit v 2 + 2 * nthBit v 1 + nthBit v 0)) 1 ∧
    evalE env ((mkSlice p sv).call inputs FXA FXB).2.2.1 =
      cond (env.boolVars (p ++ "_PFUMX_selector"))
        (evalE env ((mkSlice p sv).call inputs FXA FXB).1)
        (evalE env ((mkSlice p sv).call inputs FXA FXB).2.1) ∧
    evalE env ((mkSlice p sv).call inputs FXA FXB).2.2.2 =
      cond (env.boolVars (p ++ "_L6MUX21_selector")) (evalE env FXA) (evalE env FXB) :=
  slice_call_eval p sv inputs FXA FXB env v hv

/-- Witness for C2: a concrete slice, input value 0, under the all-zero
assignment. -/
theorem slice_call_outputs_witness :
    evalE env0 ((mkSlice "s" ⟨[]⟩).call (Expr.bvVar "x" 8) (Expr.boolVar "fa")
        (Expr.boolVar "fb")).1 =
      .bv (nthBit (env0.bvVars ("s" ++ "_lut_0_init"))
        (8 * nthBit 0 7 + 4 * nthBit 0 6 + 2 * nthBit 0 5 + nthBit 0 4)) 1 ∧
    evalE env0 ((mkSlice "s" ⟨[]⟩).call (Expr.bvVar "x" 8) (Expr.boolVar "fa")
        (Expr.boolVar "fb")).2.1 =
      .bv (nthBit (env0.bvVars ("s" ++ "_lut_1_init"))
        (8 * nthBit 0 3 + 4 * nthBit 0 2 + 2 * nthBit 0 1 + nthBit 0 0)) 1 ∧
    evalE env0 ((mkSlice "s" ⟨[]⟩).call (Expr.bvVar "x" 8) (Expr.boolVar "fa")
        (Expr.boolVar "fb")).2.2.1 =
      cond (env0.boolVars ("s" ++ "_PFUMX_selector"))
        (evalE env0 ((mkSlice "s" ⟨[]⟩).call (Expr.bvVar "x" 8) (Expr.boolVar "fa")
          (Expr.boolVar "fb")).1)
        (evalE env0 ((mkSlice "s" ⟨[]⟩).call (Expr.bvVar "x" 8) (Expr.boolVar "fa")
          (Expr.boolVar "fb")).2.1) ∧
    evalE env0 ((mkSlice "s" ⟨[]⟩).call (Expr.bvVar "x" 8) (Expr.boolVar "fa")
        (Expr.boolVar "fb")).2.2.2 =
      cond (env0.boolVars ("s" ++ "_L6MUX21_selector"))
        (evalE env0 (Expr.boolVar "fa")) (evalE env0 (Expr.boolVar "fb")) :=
  slice_call_outputs "s" ⟨[]⟩ (Expr.bvVar "x" 8) (Expr.boolVar "fa")
    (Expr.boolVar "fb") env0 0 rfl

/-- C5: noninterference of the slice outputs.  `F0` is unchanged whenever
bits 7–4 of the input value and the 16-bit value of the first LUT4's
configuration agree; `F1` is unchanged whenever bits 3–0 and the second
configuration agree; `OFX0` is unchanged (even syntactically) under any
change to `FXA` and `FXB`; `OFX1` is unchanged under any change to the
8-bit input and to both LUT4 configurations (the environments may differ
arbitrarily on all bit-vector names, in particular on both configuration
values). -/
theorem slice_noninterference (p : String) (sv : Solver)
    (inputs1 inputs2 FXA1 FXA2 FXB1 FXB2 : Expr) (env1 env2 : Env) (v1 v2 : Nat)
    (hv1 : evalE env1 inputs1 = .bv v1 8) (hv2 : evalE env2 inputs2 = .bv v2 8) :
    (v1 / 16 % 16 = v2 / 16 % 16 →
      env1.bvVars (p ++ "_lut_0_init") % 2 ^ 16 = env2.bvVars (p ++ "_lut_0_init") % 2 ^ 16 →
      evalE env1 ((mkSlice p sv).call inputs1 FXA1 FXB1).1 =
        evalE env2 ((mkSlice p sv).call inputs2 FXA2 FXB2).1) ∧
    (v1 % 16 = v2 % 16 →
      env1.bvVars (p ++ "_lut_1_init") % 2 ^ 16 = env2.bvVars (p ++ "_lut_1_init") % 2 ^ 16 →
      evalE env1 ((mkSlice p sv).call inputs1 FXA1 FXB1).2.1 =
        evalE env2 ((mkSlice p sv).call inputs2 FXA2 FXB2).2.1) ∧
    ((mkSlice p sv).call inputs1 FXA1 FXB1).2.2.1 =
      ((mkSlice p sv).call inputs1 FXA2 FXB2).2.2.1 ∧
    (env1.boolVars (p ++ "_L6MUX21_selector") = env2.boolVars (p ++ "_L6MUX21_selector") →
      evalE env1 FXA1 = evalE env2 FXA2 → evalE env1 FXB1 = evalE env2 FXB2 →
      evalE env1 ((mkSlice p sv).call inputs1 FXA1 FXB1).2.2.2 =
        evalE env2 ((mkSlice p sv).call inputs2 FXA2 FXB2).2.2.2) := by
  obtain ⟨e11, e12, e13, e14⟩ := slice_call_eval p sv inputs1 FXA1 FXB1 env1 v1 hv1
  obtain ⟨e21, e22, e23, e24⟩ := slice_call_eval p sv inputs2 FXA2 FXB2 env2 v2 hv2
  refine ⟨?_, ?_, rfl, ?_⟩
  · intro hfield hcfg
    rw [e11, e21]
    rw [nthBit_field_hi v1 v2 hfield 7 (by norm_num) (by norm_num),
      nthBit_field_hi v1 v2 hfield 6 (by norm_num) (by norm_num),
      nthBit_field_hi v1 v2 hfield 5 (by norm_num) (by norm_num),
      nthBit_field_hi v1 v2 hfield 4 (by norm_num) (by norm_num)]
    have hidx : 8 * nthBit v2 7 + 4 * nthBit v2 6 + 2 * nthBit v2 5 + nthBit v2 4 ≤ 15 := by
      have b7 := nthBit_le_one v2 7
      have b6 := nthBit_le_one v2 6
      have b5 := nthBit_le_one v2 5
      have b4 := nthBit_le_one v2 4
      omega
    rw [← nthBit_mod16 (env1.bvVars (p ++ "_lut_0_init")) _ hidx,
      ← nthBit_mod16 (env2.bvVars (p ++ "_lut_0_init")) _ hidx, hcfg]
  · intro hfield hcfg
    rw [e12, e22]
    rw [nthBit_field_lo v1 v2 hfield 3 (by norm_num),
      nthBit_field_lo v1 v2 hfield 2 (by norm_num),
      nthBit_field_lo v1 v2 hfield 1 (by norm_num),
      nthBit_field_lo v1 v2 hfield 0 (by norm_num)]
    have hidx : 8 * nthBit v2 3 + 4 * nthBit v2 2 + 2 * nthBit v2 1 + nthBit v2 0 ≤ 15 := by
      have b3 := nthBit_le_one v2 3
      have b2 := nthBit_le_one v2 2
      have b1 := nthBit_le_one v2 1
      have b0 := nthBit_le_one v2 0
      omega
    rw [← nthBit_mod16 (env1.bvVars (p ++ "_lut_1_init")) _ hidx,
      ← nthBit_mod16 (env2.bvVars (p ++ "_lut_1_init")) _ hidx, hcfg]
  · intro hsel hfa hfb
    rw [e14, e24, hsel, hfa, hfb]

/-- A second concrete assignment, differing from `env0` on every bit-vector
name (by a multiple of `2 ^ 16`, so every 16-bit configuration value is
unchanged). -/
def envN : Env := ⟨fun _ => false, fun _ => 7 * 2 ^ 16⟩

/-- Witness for C5: the two invocations run under the genuinely different
assignments `env0` and `envN` and still agree on all four outputs. -/
theorem slice_noninterference_witness :
    evalE env0 ((mkSlice "s" ⟨[]⟩).call (Expr.bvVar "x" 8) (Expr.boolVar "fa")
        (Expr.boolVar "fb")).1 =
      evalE envN ((mkSlice "s" ⟨[]⟩).call (Expr.bvVar "x" 8) (Expr.boolVar "fa")
        (Expr.boolVar "fb")).1 ∧
    evalE env0 ((mkSlice "s" ⟨[]⟩).call (Expr.bvVar "x" 8) (Expr.boolVar "fa")
        (Expr.boolVar "fb")).2.1 =
      evalE envN ((mkSlice "s" ⟨[]⟩).call (Expr.bvVar "x" 8) (Expr.boolVar "fa")
        (Expr.boolVar "fb")).2.1 ∧
    ((mkSlice "s" ⟨[]⟩).call (Expr.bvVar "x" 8) (Expr.boolVar "fa")
        (Expr.boolVar "fb")).2.2.1 =
      ((mkSlice "s" ⟨[]⟩).call (Expr.bvVar "x" 8) (Expr.boolVar "fa2")
        (Expr.boolVar "fb2")).2.2.1 ∧
    evalE env0 ((mkSlice "s" ⟨[]⟩).call (Expr.bvVar "x" 8) (Expr.boolVar "fa")
        (Expr.boolVar "fb")).2.2.2 =
      evalE envN ((mkSlice "s" ⟨[]⟩).call (Expr.bvVar "x" 8) (Expr.boolVar "fa")
        (Expr.boolVar "fb")).2.2.2 := by
  obtain ⟨g1, g2, g3, g4⟩ := slice_noninterference "s" ⟨[]⟩ (Expr.bvVar "x" 8)
    (Expr.bvVar "x" 8) (Expr.boolVar "fa") (Expr.boolVar "fa") (Expr.boolVar "fb")
    (Expr.boolVar "fb") env0 envN 0 0 rfl (by decide)
  refine ⟨g1 rfl (by decide), g2 rfl (by decide), ?_, g4 rfl (by decide) (by decide)⟩
  exact slice_noninterference "s" ⟨[]⟩ (Expr.bvVar "x" 8) (Expr.bvVar "x" 8)
    (Expr.boolVar "fa") (Expr.boolVar "fa2") (Expr.boolVar "fb") (Expr.boolVar "fb2")
    env0 envN 0 0 rfl (by decide) |>.2.2.1

/-- C6: construction creates exactly one named symbolic value per owned
field, whose name is the prefix concatenated with the fixed role suffix;
the name is a function of the prefix alone, so equal prefixes give
identically-named values. -/
theorem naming_convention :
    (∀ p : String, (mkLUT4 p).mem = Expr.bvVar (p ++ "_init") 16) ∧
    (∀ p : String, (mkMUX p).selector = Expr.boolVar (p ++ "_selector")) ∧
    (∀ p q : String, p = q →
      (mkLUT4 p).mem = (mkLUT4 q).mem ∧ (mkMUX p).selector = (mkMUX q).selector) := by
  refine ⟨fun p => rfl, fun p => rfl, ?_⟩
  rintro p q rfl
  exact ⟨rfl, rfl⟩

/-- Witness for C6 at the prefix `"a"`. -/
theorem naming_convention_witness :
    (mkLUT4 "a").mem = Expr.bvVar ("a" ++ "_init") 16 ∧
    (mkLUT4 "a").mem = (mkLUT4 "a").mem ∧ (mkMUX "a").selector = (mkMUX "a").selector :=
  ⟨naming_convention.1 "a", naming_convention.2.2 "a" "a" rfl⟩

/-- C7 counterexample: the LUT4 decode output is not of boolean sort — it is
a 1-bit bit-vector (z3's `Extract` yields sort `BitVec(1)`, which is
distinct from `Bool`). -/
theorem lut4_output_not_bool_sort :
    ((mkLUT4 "l").call (Expr.boolVar "a") (Expr.boolVar "b") (Expr.boolVar "c")
        (Expr.boolVar "d")).sort ≠ ESort.bool ∧
    ((mkLUT4 "l").call (Expr.boolVar "a") (Expr.boolVar "b") (Expr.boolVar "c")
        (Expr.boolVar "d")).sort = ESort.bv 1 := by
  constructor
  · intro h
    cases h
  · rfl

/-- C7 (amended): invoking a LUT4 instance returns a 1-bit bit-vector
expression (the decoded output bit), as does the underlying `lut4` decode. -/
theorem lut4_output_sort_bv1 (l : LUT4) (I A B C D : Expr) :
    (l.call A B C D).sort = ESort.bv 1 ∧ (lut4 I A B C D).sort = ESort.bv 1 :=
  ⟨rfl, rfl⟩

/-- C8: slice invocation is pure: it leaves every owned field unchanged, and
two calls with equal inputs return equal outputs. -/
theorem slice_call_pure (s : Slice) (inputs FXA FXB : Expr) :
    (s.callSt inputs FXA FXB).1 = s ∧
    (s.callSt inputs FXA FXB).1.pfx = s.pfx ∧
    (s.callSt inputs FXA FXB).1.solver = s.solver ∧
    (s.callSt inputs FXA FXB).1.lut4_0 = s.lut4_0 ∧
    (s.callSt inputs FXA FXB).1.lut4_1 = s.lut4_1 ∧
    (s.callSt inputs FXA FXB).1.pfumx = s.pfumx ∧
    (s.callSt inputs FXA FXB).1.l6mux21 = s.l6mux21 ∧
    ∀ inputs2 FXA2 FXB2, inputs = inputs2 → FXA = FXA2 → FXB = FXB2 →
      (s.callSt inputs FXA FXB).2 = (s.callSt inputs2 FXA2 FXB2).2 := by
  refine ⟨rfl, rfl, rfl, rfl, rfl, rfl, rfl, ?_⟩
  rintro inputs2 FXA2 FXB2 rfl rfl rfl
  rfl

/-- Witness for C8 on a concrete slice and concrete inputs. -/
theorem slice_call_pure_witness :
    ((mkSlice "s" ⟨[]⟩).callSt (Expr.bvVar "x" 8) (Expr.boolVar "fa")
        (Expr.boolVar "fb")).1 = mkSlice "s" ⟨[]⟩ ∧
    ((mkSlice "s" ⟨[]⟩).callSt (Expr.bvVar "x" 8) (Expr.boolVar "fa")
        (Expr.boolVar "fb")).2 =
      ((mkSlice "s" ⟨[]⟩).callSt (Expr.bvVar "x" 8) (Expr.boolVar "fa")
        (Expr.boolVar "fb")).2 := by
  have h := slice_call_pure (mkSlice "s" ⟨[]⟩) (Expr.bvVar "x" 8) (Expr.boolVar "fa")
    (Expr.boolVar "fb")
  exact ⟨h.1, h.2.2.2.2.2.2.2 (Expr.bvVar "x" 8) (Expr.boolVar "fa")
    (Expr.boolVar "fb") rfl rfl rfl⟩

/-- C10: the solver passed to the slice constructor is stored unchanged (in
particular its list of asserted constraints is untouched), no other owned
field depends on it, and slices built over different solvers from the same
prefix produce identical outputs on every input. -/
theorem solver_stored_never_used (p : String) (s1 s2 : Solver) :
    (mkSlice p s1).solver = s1 ∧
    (mkSlice p s1).solver.assertions = s1.assertions ∧
    (mkSlice p s1).pfx = (mkSlice p s2).pfx ∧
    (mkSlice p s1).lut4_0 = (mkSlice p s2).lut4_0 ∧
    (mkSlice p s1).lut4_1 = (mkSlice p s2).lut4_1 ∧
    (mkSlice p s1).pfumx = (mkSlice p s2).pfumx ∧
    (mkSlice p s1).l6mux21 = (mkSlice p s2).l6mux21 ∧
    ∀ inputs FXA FXB,
      (mkSlice p s1).call inputs FXA FXB = (mkSlice p s2).call inputs FXA FXB :=
  ⟨rfl, rfl, rfl, rfl, rfl, rfl, rfl, fun _ _ _ => rfl⟩

end Lattice
